import Mathlib

/-!
Shallow embedding of `src/gcal_options.py` (gcal-brunch).

Python `datetime.datetime` values are aware datetimes: a local wall-clock
reading together with a fixed UTC offset.  We model a datetime as the pair
of its wall-clock time (microseconds on the local clock, counted from
1970-01-01T00:00:00 local) and its UTC offset (microseconds).  Python
compares aware datetimes by absolute instant (`wall - off`); the field
accessors `.hour`, `.minute`, `.second`, `.microsecond`, `.day` read the
local wall clock, and `+ timedelta(...)` adds to the wall clock keeping
the offset.  `.day` is the day of month, computed here by the standard
civil-from-days calendar algorithm.
-/

namespace GcalBrunch

structure DateTime where
  wall : Int
  off : Int
deriving DecidableEq, Repr

/-- Absolute instant of an aware datetime; Python comparison order. -/
def instant (t : DateTime) : Int := t.wall - t.off

/-- Microseconds since local midnight. -/
def timeOfDay (t : DateTime) : Int := t.wall % 86400000000

/-- Python `.hour`. -/
def hour (t : DateTime) : Int := timeOfDay t / 3600000000

/-- Python `.minute`. -/
def minute (t : DateTime) : Int := timeOfDay t % 3600000000 / 60000000

/-- Python `.second`. -/
def second (t : DateTime) : Int := timeOfDay t % 60000000 / 1000000

/-- Python `.microsecond`. -/
def microsecond (t : DateTime) : Int := timeOfDay t % 1000000

/-- Local calendar day counted from 1970-01-01. -/
def dayIndex (t : DateTime) : Int := t.wall / 86400000000

/-- Python `.day` (day of month), by the civil-from-days algorithm. -/
def dayOfMonth (t : DateTime) : Int :=
  let z := dayIndex t + 719468
  let era := (if 0 ≤ z then z else z - 146096) / 146097
  let doe := z - era * 146097
  let yoe := (doe - doe / 1460 + doe / 36524 - doe / 146096) / 365
  let doy := doe - (365 * yoe + yoe / 4 - yoe / 100)
  let mp := (5 * doy + 2) / 153
  doy - (153 * mp + 2) / 5 + 1

/-- Python `t + timedelta(microseconds=d)`. -/
def addUsec (t : DateTime) (d : Int) : DateTime := ⟨t.wall + d, t.off⟩

/-- Python `t + timedelta(minutes=m)`. -/
def addMinutes (t : DateTime) (m : Int) : DateTime := addUsec t (m * 60000000)

/-- Python `t + timedelta(days=d)`. -/
def addDays (t : DateTime) (d : Int) : DateTime := addUsec t (d * 86400000000)

/-- Python `t.replace(minute=m)` (for 0 ≤ m < 60). -/
def replaceMinuteTo (t : DateTime) (m : Int) : DateTime :=
  ⟨t.wall + (m - minute t) * 60000000, t.off⟩

/-- Python `t.replace(hour=h)` (for 0 ≤ h < 24). -/
def replaceHourTo (t : DateTime) (h : Int) : DateTime :=
  ⟨t.wall + (h - hour t) * 3600000000, t.off⟩

/-- Python `t.replace(minute=0, second=0, microsecond=0)`. -/
def truncateToHour (t : DateTime) : DateTime :=
  ⟨t.wall - timeOfDay t % 3600000000, t.off⟩

/-- A busy interval, as parsed by `string_to_datetime` from the
`{'start': ..., 'end': ...}` dictionaries; `stop` models the `'end'` key
(`end` is a reserved word in Lean). -/
structure BusyInterval where
  start : DateTime
  stop : DateTime
deriving DecidableEq, Repr

/-- `round_to_half_hour` from gcal_options.py lines 118-128: if the minute
is not 0 or 30, snap up to minute 30 (when minute < 30) or to minute 0 of
the next hour.  Seconds and microseconds are untouched. -/
def round_to_half_hour (meeting_time : DateTime) : DateTime :=
  if minute meeting_time = 0 ∨ minute meeting_time = 30 then meeting_time
  else if minute meeting_time < 30 then replaceMinuteTo meeting_time 30
  else addUsec (replaceMinuteTo meeting_time 0) 3600000000

/-- The `for blocked in availaibity` scan of find_a_time lines 169-183:
each interval is checked against the current cursor, then (via the
`continue`, only if the first check failed) against the fixed
`meeting_end_time`; a hit clears `slot_available` and moves the cursor to
the interval's rounded end. -/
def scanBusy : List BusyInterval → DateTime → DateTime → Bool → DateTime × Bool
  | [], mst, _, avail => (mst, avail)
  | b :: rest, mst, met, avail =>
    if instant b.start ≤ instant mst ∧ instant mst < instant b.stop then
      scanBusy rest (round_to_half_hour b.stop) met false
    else if instant b.start ≤ instant met ∧ instant met < instant b.stop then
      scanBusy rest (round_to_half_hour b.stop) met false
    else scanBusy rest mst met avail

/-- The lower-bound clamp and day-rollover branch of find_a_time
(lines 156-167), acting on the snapped cursor `mst1` and the current
(possibly stale) `meeting_end_time` `met`; returns the updated pair. -/
def clampStep (earliest_start latest_finish : DateTime) (duration : Int)
    (mst1 met : DateTime) : DateTime × DateTime :=
  if hour mst1 < hour earliest_start then
    let m := replaceHourTo mst1 (hour earliest_start)
    (m, addMinutes m duration)
  else if hour latest_finish ≤ hour met ∨ dayOfMonth met ≠ dayOfMonth mst1 then
    let m := replaceHourTo (addDays mst1 1) (hour earliest_start)
    (m, addMinutes m duration)
  else (mst1, met)

/-- The body of one iteration of the `while` loop of find_a_time
(lines 155-189): grid snap, lower-bound clamp or day rollover, busy scan,
acceptance, and the final recomputation of `meeting_end_time`.  Returns
the new `(meeting_start_time, meeting_end_time, meeting_times)`. -/
def loopStep (availaibity : List BusyInterval)
    (end_time earliest_start latest_finish : DateTime)
    (interval duration : Int) (mst met : DateTime) (acc : List DateTime) :
    DateTime × DateTime × List DateTime :=
  let p := clampStep earliest_start latest_finish duration (round_to_half_hour mst) met
  let q := scanBusy availaibity p.1 p.2 true
  let r :=
    if q.2 ∧ instant q.1 < instant end_time
    then (addMinutes q.1 interval, acc ++ [q.1])
    else (q.1, acc)
  (r.1, addMinutes r.1 duration, r.2)

/-- One-to-one transcription of the `while meeting_end_time < end_time`
loop of find_a_time (lines 154-190), with a fuel parameter for the
recursion; `none` means the fuel ran out before the loop exited. -/
def findLoop (availaibity : List BusyInterval)
    (end_time earliest_start latest_finish : DateTime)
    (interval duration : Int) :
    Nat → DateTime → DateTime → List DateTime → Option (List DateTime)
  | 0, _, _, _ => none
  | Nat.succ fuel, mst, met, acc =>
    if instant met < instant end_time then
      let s := loopStep availaibity end_time earliest_start latest_finish
        interval duration mst met acc
      findLoop availaibity end_time earliest_start latest_finish interval duration
        fuel s.1 s.2.1 s.2.2
    else some acc

/-- Initial cursor of find_a_time (lines 149-152):
`meeting_start_time = start_time.replace(minute=0, second=0, microsecond=0)`. -/
def initMeetingStart (start_time : DateTime) : DateTime := truncateToHour start_time

/-- Initial `meeting_end_time` of find_a_time (line 153):
`start_time + timedelta(minutes=duration)` — computed from the original,
untruncated `start_time`. -/
def initMeetingEnd (start_time : DateTime) (duration : Int) : DateTime :=
  addMinutes start_time duration

/-- `find_a_time` from gcal_options.py lines 138-190. -/
def find_a_time (fuel : Nat) (availaibity : List BusyInterval)
    (start_time end_time earliest_start latest_finish : DateTime)
    (interval duration : Int) : Option (List DateTime) :=
  findLoop availaibity end_time earliest_start latest_finish interval duration
    fuel (initMeetingStart start_time) (initMeetingEnd start_time duration) []

/-- Helper for concrete test datetimes (UTC offset 0): day index, hour,
minute, second, microsecond. -/
def mkDT (d h m s u : Int) : DateTime :=
  ⟨d * 86400000000 + h * 3600000000 + m * 60000000 + s * 1000000 + u, 0⟩


lemma timeOfDay_bounds (t : DateTime) : 0 ≤ timeOfDay t ∧ timeOfDay t < 86400000000 := by
  simp only [timeOfDay]; omega

lemma hour_bounds (t : DateTime) : 0 ≤ hour t ∧ hour t < 24 := by
  simp only [hour, timeOfDay]; omega

lemma minute_bounds (t : DateTime) : 0 ≤ minute t ∧ minute t < 60 := by
  simp only [minute, timeOfDay]; omega

lemma instant_le_round (t : DateTime) : instant t ≤ instant (round_to_half_hour t) := by
  unfold round_to_half_hour
  split_ifs with h1 h2 <;>
    simp only [instant, addUsec, replaceMinuteTo, minute, timeOfDay] at * <;>
    omega

lemma wall_le_round (t : DateTime) : t.wall ≤ (round_to_half_hour t).wall := by
  unfold round_to_half_hour
  split_ifs with h1 h2 <;>
    simp only [addUsec, replaceMinuteTo, minute, timeOfDay] at * <;>
    omega

lemma minute_round (t : DateTime) :
    minute (round_to_half_hour t) = 0 ∨ minute (round_to_half_hour t) = 30 := by
  unfold round_to_half_hour
  split_ifs with h1 h2 <;>
    simp only [addUsec, replaceMinuteTo, minute, timeOfDay] at * <;>
    omega

lemma round_eq_self (t : DateTime) (h : minute t = 0 ∨ minute t = 30) :
    round_to_half_hour t = t := by
  unfold round_to_half_hour
  rw [if_pos h]

lemma second_round (t : DateTime) : second (round_to_half_hour t) = second t := by
  unfold round_to_half_hour
  split_ifs with h1 h2 <;>
    simp only [second, addUsec, replaceMinuteTo, minute, timeOfDay] at * <;>
    omega

lemma microsecond_round (t : DateTime) :
    microsecond (round_to_half_hour t) = microsecond t := by
  unfold round_to_half_hour
  split_ifs with h1 h2 <;>
    simp only [microsecond, addUsec, replaceMinuteTo, minute, timeOfDay] at * <;>
    omega

lemma off_round (t : DateTime) : (round_to_half_hour t).off = t.off := by
  unfold round_to_half_hour
  split_ifs <;> rfl

lemma minute_replaceHourTo (t : DateTime) (h : Int) :
    minute (replaceHourTo t h) = minute t := by
  simp only [replaceHourTo, minute, hour, timeOfDay]; omega

lemma second_replaceHourTo (t : DateTime) (h : Int) :
    second (replaceHourTo t h) = second t := by
  simp only [replaceHourTo, second, hour, timeOfDay]; omega

lemma hour_replaceHourTo (t : DateTime) (h : Int) (h0 : 0 ≤ h) (h24 : h < 24) :
    hour (replaceHourTo t h) = h := by
  simp only [replaceHourTo, hour, timeOfDay]; omega

lemma minute_addDays (t : DateTime) : minute (addDays t 1) = minute t := by
  simp only [addDays, addUsec, minute, timeOfDay]; omega

lemma hour_addDays (t : DateTime) : hour (addDays t 1) = hour t := by
  simp only [addDays, addUsec, hour, timeOfDay]; omega

lemma minute_addMinutes_grid (t : DateTime) (i : Int) (hi : i % 30 = 0)
    (ht : minute t = 0 ∨ minute t = 30) :
    minute (addMinutes t i) = 0 ∨ minute (addMinutes t i) = 30 := by
  simp only [addMinutes, addUsec, minute, timeOfDay] at ht ⊢
  omega

lemma instant_addMinutes (t : DateTime) (m : Int) :
    instant (addMinutes t m) = instant t + m * 60000000 := by
  simp only [instant, addMinutes, addUsec]; omega



lemma scanBusy_false (l : List BusyInterval) (cur met : DateTime) :
    (scanBusy l cur met false).2 = false := by
  induction l generalizing cur with
  | nil => rfl
  | cons b rest ih =>
    simp only [scanBusy]
    split_ifs <;> exact ih _

lemma scanBusy_true_eq (l : List BusyInterval) (cur met : DateTime) (a : Bool)
    (h : (scanBusy l cur met a).2 = true) : scanBusy l cur met a = (cur, a) := by
  induction l generalizing cur a with
  | nil => rfl
  | cons b rest ih =>
    simp only [scanBusy] at h ⊢
    split_ifs at h ⊢ with h1 h2
    · rw [scanBusy_false] at h; exact absurd h (by simp)
    · rw [scanBusy_false] at h; exact absurd h (by simp)
    · exact ih _ _ h

lemma scanBusy_true_clear (l : List BusyInterval) (cur met : DateTime) (a : Bool)
    (h : (scanBusy l cur met a).2 = true) :
    ∀ b ∈ l, ¬(instant b.start ≤ instant cur ∧ instant cur < instant b.stop) ∧
      ¬(instant b.start ≤ instant met ∧ instant met < instant b.stop) := by
  induction l generalizing cur a with
  | nil => intro b hb; cases hb
  | cons c rest ih =>
    intro b hb
    simp only [scanBusy] at h
    split_ifs at h with h1 h2
    · rw [scanBusy_false] at h; exact absurd h (by simp)
    · rw [scanBusy_false] at h; exact absurd h (by simp)
    · rcases List.mem_cons.mp hb with rfl | hb
      · exact ⟨h1, h2⟩
      · exact ih _ _ h b hb

lemma scanBusy_progress (l : List BusyInterval) (cur met : DateTime) (a : Bool)
    (m0 : Int) (hcur : m0 ≤ instant cur) (hmet : m0 ≤ instant met) :
    scanBusy l cur met a = (cur, a) ∨ m0 < instant (scanBusy l cur met a).1 := by
  induction l generalizing cur a with
  | nil => left; rfl
  | cons b rest ih =>
    simp only [scanBusy]
    split_ifs with h1 h2
    · have hlt : m0 < instant (round_to_half_hour b.stop) :=
        lt_of_lt_of_le (lt_of_le_of_lt hcur h1.2) (instant_le_round b.stop)
      rcases ih (round_to_half_hour b.stop) false (le_of_lt hlt) with heq | hgt
      · right; rw [heq]; exact hlt
      · right; exact hgt
    · have hlt : m0 < instant (round_to_half_hour b.stop) :=
        lt_of_lt_of_le (lt_of_le_of_lt hmet h2.2) (instant_le_round b.stop)
      rcases ih (round_to_half_hour b.stop) false (le_of_lt hlt) with heq | hgt
      · right; rw [heq]; exact hlt
      · right; exact hgt
    · exact ih cur a hcur

lemma scanBusy_minute (l : List BusyInterval) (cur met : DateTime) (a : Bool)
    (h : minute cur = 0 ∨ minute cur = 30) :
    minute (scanBusy l cur met a).1 = 0 ∨ minute (scanBusy l cur met a).1 = 30 := by
  induction l generalizing cur a with
  | nil => exact h
  | cons b rest ih =>
    simp only [scanBusy]
    split_ifs with h1 h2
    · exact ih _ _ (minute_round b.stop)
    · exact ih _ _ (minute_round b.stop)
    · exact ih _ _ h

lemma truncate_eq_self (t : DateTime) (hm : minute t = 0) (hs : second t = 0)
    (hu : microsecond t = 0) : truncateToHour t = t := by
  cases t with
  | mk w o =>
    simp only [truncateToHour, minute, second, microsecond, timeOfDay] at *
    congr 1
    omega

lemma instant_truncate_le (t : DateTime) : instant (truncateToHour t) ≤ instant t := by
  simp only [instant, truncateToHour, timeOfDay]; omega

lemma minute_truncate (t : DateTime) : minute (truncateToHour t) = 0 := by
  simp only [minute, truncateToHour, timeOfDay]; omega



lemma tod_replaceHourTo (t : DateTime) (h : Int) (h0 : 0 ≤ h) (h24 : h < 24) :
    timeOfDay (replaceHourTo t h) = h * 3600000000 + timeOfDay t % 3600000000 := by
  simp only [replaceHourTo, hour, timeOfDay]; omega

lemma tod_sub_hour_small (t : DateTime) (h : minute t = 0 ∨ minute t = 30) :
    timeOfDay t % 3600000000 < 1860000000 := by
  simp only [minute, timeOfDay] at *; omega

lemma addMinutes_nowrap (t : DateTime) (d : Int)
    (h0 : 0 ≤ timeOfDay t + d * 60000000)
    (h1 : timeOfDay t + d * 60000000 < 86400000000) :
    timeOfDay (addMinutes t d) = timeOfDay t + d * 60000000 ∧
      dayIndex (addMinutes t d) = dayIndex t := by
  simp only [addMinutes, addUsec, timeOfDay, dayIndex] at *
  omega

lemma dom_congr (a b : DateTime) (h : dayIndex a = dayIndex b) :
    dayOfMonth a = dayOfMonth b := by
  simp only [dayOfMonth, h]

lemma instant_replaceHourTo_gt (t : DateTime) (h : Int) (hgt : hour t < h) :
    instant t < instant (replaceHourTo t h) := by
  simp only [replaceHourTo, instant] at *
  have := hour_bounds t
  nlinarith

lemma instant_rollover_gt (t : DateTime) (h : Int) (h0 : 0 ≤ h) :
    instant t < instant (replaceHourTo (addDays t 1) h) := by
  simp only [replaceHourTo, addDays, addUsec, instant] at *
  have h1 := hour_bounds (addDays t 1)
  simp only [addDays, addUsec] at h1
  nlinarith

lemma clampStep_fst_minute (eS lF : DateTime) (d : Int) (mst1 met : DateTime)
    (h : minute mst1 = 0 ∨ minute mst1 = 30) :
    minute (clampStep eS lF d mst1 met).1 = 0 ∨
      minute (clampStep eS lF d mst1 met).1 = 30 := by
  unfold clampStep
  split_ifs with h1 h2
  · simpa [minute_replaceHourTo] using h
  · simpa [minute_replaceHourTo, minute_addDays] using h
  · exact h

lemma clampStep_snd (eS lF : DateTime) (d : Int) (mst1 met : DateTime)
    (h : met = addMinutes mst1 d) :
    (clampStep eS lF d mst1 met).2 = addMinutes (clampStep eS lF d mst1 met).1 d := by
  unfold clampStep
  split_ifs with h1 h2
  · rfl
  · rfl
  · exact h

lemma clampStep_instant_ge (eS lF : DateTime) (d : Int) (mst1 met : DateTime) :
    instant mst1 ≤ instant (clampStep eS lF d mst1 met).1 := by
  unfold clampStep
  split_ifs with h1 h2
  · exact le_of_lt (instant_replaceHourTo_gt _ _ h1)
  · exact le_of_lt (instant_rollover_gt _ _ (hour_bounds eS).1)
  · exact le_refl _

lemma clampStep_snd_ge (eS lF : DateTime) (d : Int) (mst1 met : DateTime)
    (m0 : Int) (hd : 0 ≤ d) (h1 : m0 ≤ instant mst1) (h2 : m0 ≤ instant met) :
    m0 ≤ instant (clampStep eS lF d mst1 met).2 := by
  unfold clampStep
  split_ifs with hc1 hc2
  · refine le_trans (le_trans h1 (le_of_lt (instant_replaceHourTo_gt _ _ hc1))) ?_
    rw [instant_addMinutes]; omega
  · refine le_trans (le_trans h1
      (le_of_lt (instant_rollover_gt _ _ (hour_bounds eS).1))) ?_
    rw [instant_addMinutes]; omega
  · exact h2



lemma window_of_tod (s : DateTime) (d hE hL : Int)
    (hd : 0 ≤ d) (hE0 : 0 ≤ hE) (hL24 : hL < 24)
    (htod : timeOfDay s < hE * 3600000000 + 1860000000)
    (hEtod : hE * 3600000000 ≤ timeOfDay s)
    (hslack : hE * 60 + 31 + d ≤ hL * 60) :
    hour (addMinutes s d) < hL ∧ dayOfMonth (addMinutes s d) = dayOfMonth s := by
  have hnw := addMinutes_nowrap s d (by omega) (by omega)
  constructor
  · simp only [hour, hnw.1]; omega
  · exact dom_congr _ _ hnw.2

lemma clampStep_window (eS lF : DateTime) (d : Int) (mst1 met : DateTime)
    (hmin : minute mst1 = 0 ∨ minute mst1 = 30)
    (hmet : met = addMinutes mst1 d) (hd : 0 ≤ d)
    (hslack : hour eS * 60 + 31 + d ≤ hour lF * 60) :
    hour eS ≤ hour (clampStep eS lF d mst1 met).1 ∧
      hour (addMinutes (clampStep eS lF d mst1 met).1 d) < hour lF ∧
      dayOfMonth (addMinutes (clampStep eS lF d mst1 met).1 d) =
        dayOfMonth (clampStep eS lF d mst1 met).1 := by
  have hE := hour_bounds eS
  have hL := hour_bounds lF
  unfold clampStep
  split_ifs with h1 h2
  · set s := replaceHourTo mst1 (hour eS) with hs
    have htod : timeOfDay s = hour eS * 3600000000 + timeOfDay mst1 % 3600000000 :=
      tod_replaceHourTo _ _ hE.1 hE.2
    have hsmall := tod_sub_hour_small mst1 hmin
    have hmod : 0 ≤ timeOfDay mst1 % 3600000000 := by
      have := timeOfDay_bounds mst1; omega
    refine ⟨?_, ?_⟩
    · rw [hour_replaceHourTo _ _ hE.1 hE.2]
    · exact window_of_tod s d (hour eS) (hour lF) hd hE.1 hL.2
        (by omega) (by omega) hslack
  · set s := replaceHourTo (addDays mst1 1) (hour eS) with hs
    have htod : timeOfDay s =
        hour eS * 3600000000 + timeOfDay (addDays mst1 1) % 3600000000 :=
      tod_replaceHourTo _ _ hE.1 hE.2
    have hmm : minute (addDays mst1 1) = 0 ∨ minute (addDays mst1 1) = 30 := by
      rw [minute_addDays]; exact hmin
    have hsmall := tod_sub_hour_small _ hmm
    have hmod : 0 ≤ timeOfDay (addDays mst1 1) % 3600000000 := by
      have := timeOfDay_bounds (addDays mst1 1); omega
    refine ⟨?_, ?_⟩
    · rw [hour_replaceHourTo _ _ hE.1 hE.2]
    · exact window_of_tod s d (hour eS) (hour lF) hd hE.1 hL.2
        (by omega) (by omega) hslack
  · push_neg at h1 h2
    dsimp only
    rw [← hmet]
    exact ⟨h1, h2.1, h2.2⟩



lemma loopStep_met_eq (A : List BusyInterval) (e eS lF : DateTime) (i d : Int)
    (mst met : DateTime) (acc : List DateTime) :
    (loopStep A e eS lF i d mst met acc).2.1 =
      addMinutes (loopStep A e eS lF i d mst met acc).1 d := rfl

lemma loopStep_acc_inv (A : List BusyInterval) (e eS lF : DateTime) (i d : Int)
    (mst met : DateTime) (acc : List DateTime) :
    (loopStep A e eS lF i d mst met acc).2.2 = acc ∨
    ((loopStep A e eS lF i d mst met acc).2.2 =
        acc ++ [(clampStep eS lF d (round_to_half_hour mst) met).1] ∧
      (scanBusy A (clampStep eS lF d (round_to_half_hour mst) met).1
        (clampStep eS lF d (round_to_half_hour mst) met).2 true).2 = true ∧
      instant (clampStep eS lF d (round_to_half_hour mst) met).1 < instant e) := by
  unfold loopStep
  dsimp only
  split_ifs with hc
  · right
    obtain ⟨h2, hlt⟩ := hc
    have heq := scanBusy_true_eq A _ _ true h2
    refine ⟨?_, h2, ?_⟩
    · rw [heq]
    · rw [heq] at hlt; exact hlt
  · left; rfl

lemma loopStep_fst_minute (A : List BusyInterval) (e eS lF : DateTime) (i d : Int)
    (mst met : DateTime) (acc : List DateTime) (hi : i % 30 = 0) :
    minute (loopStep A e eS lF i d mst met acc).1 = 0 ∨
      minute (loopStep A e eS lF i d mst met acc).1 = 30 := by
  unfold loopStep
  dsimp only
  have hq := scanBusy_minute A (clampStep eS lF d (round_to_half_hour mst) met).1
    (clampStep eS lF d (round_to_half_hour mst) met).2 true
    (clampStep_fst_minute _ _ _ _ _ (minute_round mst))
  split_ifs with hc
  · exact minute_addMinutes_grid _ _ hi hq
  · exact hq

lemma loopStep_progress (A : List BusyInterval) (e eS lF : DateTime) (i d : Int)
    (mst met : DateTime) (acc : List DateTime)
    (hd : 0 ≤ d) (hi : 0 < i) (hJ : instant mst ≤ instant met) :
    instant mst < instant (loopStep A e eS lF i d mst met acc).1 ∨
      instant e ≤ instant (loopStep A e eS lF i d mst met acc).2.1 := by
  have h1 : instant mst ≤ instant (round_to_half_hour mst) := instant_le_round mst
  have h2 : instant mst ≤
      instant (clampStep eS lF d (round_to_half_hour mst) met).1 :=
    le_trans h1 (clampStep_instant_ge _ _ _ _ _)
  have h3 : instant mst ≤
      instant (clampStep eS lF d (round_to_half_hour mst) met).2 :=
    clampStep_snd_ge _ _ _ _ _ _ hd h1 hJ
  have hscan := scanBusy_progress A
    (clampStep eS lF d (round_to_half_hour mst) met).1
    (clampStep eS lF d (round_to_half_hour mst) met).2 true (instant mst) h2 h3
  rcases hscan with heq | hgt
  · by_cases hlt :
      instant (clampStep eS lF d (round_to_half_hour mst) met).1 < instant e
    · left
      unfold loopStep
      dsimp only
      rw [heq]
      rw [if_pos ⟨rfl, hlt⟩]
      dsimp only
      rw [instant_addMinutes]
      omega
    · right
      unfold loopStep
      dsimp only
      rw [heq]
      rw [if_neg (fun hcon => hlt hcon.2)]
      dsimp only
      rw [instant_addMinutes]
      omega
  · left
    unfold loopStep
    dsimp only
    split_ifs with hc
    · rw [instant_addMinutes]
      omega
    · exact hgt



lemma findLoop_unfold_succ (A : List BusyInterval) (e eS lF : DateTime)
    (i d : Int) (fuel : Nat) (mst met : DateTime) (acc : List DateTime) :
    findLoop A e eS lF i d (fuel + 1) mst met acc =
      if instant met < instant e then
        findLoop A e eS lF i d fuel (loopStep A e eS lF i d mst met acc).1
          (loopStep A e eS lF i d mst met acc).2.1
          (loopStep A e eS lF i d mst met acc).2.2
      else some acc := rfl

lemma findLoop_minute (A : List BusyInterval) (e eS lF : DateTime) (i d : Int) :
    ∀ (fuel : Nat) (mst met : DateTime) (acc l : List DateTime),
      (∀ s ∈ acc, minute s = 0 ∨ minute s = 30) →
      findLoop A e eS lF i d fuel mst met acc = some l →
      ∀ s ∈ l, minute s = 0 ∨ minute s = 30 := by
  intro fuel
  induction fuel with
  | zero => intro mst met acc l _ h; exact absurd h (by simp [findLoop])
  | succ fuel ih =>
    intro mst met acc l hacc h
    rw [findLoop_unfold_succ] at h
    split_ifs at h with hcond
    · refine ih _ _ _ _ ?_ h
      rcases loopStep_acc_inv A e eS lF i d mst met acc with hsame | ⟨happ, hscan, _⟩
      · rw [hsame]; exact hacc
      · rw [happ]
        intro s hs
        rcases List.mem_append.mp hs with hs | hs
        · exact hacc s hs
        · have hx : s = (clampStep eS lF d (round_to_half_hour mst) met).1 :=
            List.mem_singleton.mp hs
          rw [hx]
          exact clampStep_fst_minute _ _ _ _ _ (minute_round mst)
    · obtain rfl : acc = l := by injection h
      exact hacc

lemma findLoop_terminates (A : List BusyInterval) (e eS lF : DateTime)
    (i d : Int) (hd : 0 ≤ d) (hi : 0 < i) :
    ∀ (fuel : Nat) (mst met : DateTime) (acc : List DateTime),
      instant mst ≤ instant met →
      (instant e - instant mst).toNat < fuel →
      (findLoop A e eS lF i d fuel mst met acc).isSome := by
  intro fuel
  induction fuel with
  | zero => intro mst met acc _ hlt; omega
  | succ fuel ih =>
    intro mst met acc hJ hlt
    rw [findLoop_unfold_succ]
    split_ifs with hcond
    · have hJ2 : instant (loopStep A e eS lF i d mst met acc).1 ≤
          instant (loopStep A e eS lF i d mst met acc).2.1 := by
        rw [loopStep_met_eq, instant_addMinutes]; omega
      rcases loopStep_progress A e eS lF i d mst met acc hd hi hJ with hprog | hstop
      · refine ih _ _ _ hJ2 ?_
        have hmlt : instant mst < instant e := lt_of_le_of_lt hJ hcond
        omega
      · cases fuel with
        | zero =>
          have hmlt : instant mst < instant e := lt_of_le_of_lt hJ hcond
          omega
        | succ fuel2 =>
          rw [findLoop_unfold_succ]
          rw [if_neg (not_lt.mpr hstop)]
          exact Option.isSome_some
    · exact Option.isSome_some



/-- Endpoint non-membership of a slot and its duration-end in every busy
interval; the property of claim C1. -/
def slotClear (A : List BusyInterval) (d : Int) (s : DateTime) : Prop :=
  ∀ b ∈ A,
    ¬(instant b.start ≤ instant s ∧ instant s < instant b.stop) ∧
    ¬(instant b.start ≤ instant (addMinutes s d) ∧
        instant (addMinutes s d) < instant b.stop)

lemma findLoop_noOverlap (A : List BusyInterval) (e eS lF : DateTime)
    (i d : Int) (hi : i % 30 = 0) :
    ∀ (fuel : Nat) (mst met : DateTime) (acc l : List DateTime),
      (minute mst = 0 ∨ minute mst = 30) →
      met = addMinutes mst d →
      (∀ s ∈ acc, slotClear A d s) →
      findLoop A e eS lF i d fuel mst met acc = some l →
      ∀ s ∈ l, slotClear A d s := by
  intro fuel
  induction fuel with
  | zero => intro mst met acc l _ _ _ h; exact absurd h (by simp [findLoop])
  | succ fuel ih =>
    intro mst met acc l hmin hmet hacc h
    rw [findLoop_unfold_succ] at h
    split_ifs at h with hcond
    · refine ih _ _ _ _ (loopStep_fst_minute A e eS lF i d mst met acc hi)
        (loopStep_met_eq A e eS lF i d mst met acc) ?_ h
      rcases loopStep_acc_inv A e eS lF i d mst met acc with hsame | ⟨happ, hscan, _⟩
      · rw [hsame]; exact hacc
      · rw [happ]
        intro s hs
        rcases List.mem_append.mp hs with hs | hs
        · exact hacc s hs
        · have hx := List.mem_singleton.mp hs
          have hround : round_to_half_hour mst = mst := round_eq_self mst hmin
          have hmet2 : met = addMinutes (round_to_half_hour mst) d := by
            rw [hround]; exact hmet
          have hsnd := clampStep_snd eS lF d (round_to_half_hour mst) met hmet2
          have hclear := scanBusy_true_clear A
            (clampStep eS lF d (round_to_half_hour mst) met).1
            (clampStep eS lF d (round_to_half_hour mst) met).2 true hscan
          rw [hx]
          intro b hb
          have := hclear b hb
          rw [hsnd] at this
          exact this
    · obtain rfl : acc = l := by injection h
      exact hacc

/-- Working-window position of a slot: starts no earlier than the
earliest-start hour, its duration-end's hour is below the latest-finish
hour, and start and end share the day of month; the property of claim C2. -/
def slotInWindow (eS lF : DateTime) (d : Int) (s : DateTime) : Prop :=
  hour eS ≤ hour s ∧ hour (addMinutes s d) < hour lF ∧
    dayOfMonth (addMinutes s d) = dayOfMonth s

lemma findLoop_window (A : List BusyInterval) (e eS lF : DateTime)
    (i d : Int) (hi : i % 30 = 0) (hd : 0 ≤ d)
    (hslack : hour eS * 60 + 31 + d ≤ hour lF * 60) :
    ∀ (fuel : Nat) (mst met : DateTime) (acc l : List DateTime),
      (minute mst = 0 ∨ minute mst = 30) →
      met = addMinutes mst d →
      (∀ s ∈ acc, slotInWindow eS lF d s) →
      findLoop A e eS lF i d fuel mst met acc = some l →
      ∀ s ∈ l, slotInWindow eS lF d s := by
  intro fuel
  induction fuel with
  | zero => intro mst met acc l _ _ _ h; exact absurd h (by simp [findLoop])
  | succ fuel ih =>
    intro mst met acc l hmin hmet hacc h
    rw [findLoop_unfold_succ] at h
    split_ifs at h with hcond
    · refine ih _ _ _ _ (loopStep_fst_minute A e eS lF i d mst met acc hi)
        (loopStep_met_eq A e eS lF i d mst met acc) ?_ h
      rcases loopStep_acc_inv A e eS lF i d mst met acc with hsame | ⟨happ, _hscan, _⟩
      · rw [hsame]; exact hacc
      · rw [happ]
        intro s hs
        rcases List.mem_append.mp hs with hs | hs
        · exact hacc s hs
        · have hx := List.mem_singleton.mp hs
          have hmet2 : met = addMinutes (round_to_half_hour mst) d := by
            rw [round_eq_self mst hmin]; exact hmet
          rw [hx]
          exact clampStep_window eS lF d (round_to_half_hour mst) met
            (minute_round mst) hmet2 hd hslack
    · obtain rfl : acc = l := by injection h
      exact hacc



lemma scanBusy_filter (A : List BusyInterval) (cur met : DateTime) (a : Bool) :
    scanBusy (A.filter fun b => decide (instant b.start < instant b.stop)) cur met a =
      scanBusy A cur met a := by
  induction A generalizing cur a with
  | nil => rfl
  | cons b rest ih =>
    by_cases hwf : instant b.start < instant b.stop
    · rw [List.filter_cons_of_pos (by simpa using hwf)]
      simp only [scanBusy]
      split_ifs <;> exact ih _ _
    · rw [List.filter_cons_of_neg (by simpa using hwf)]
      have h1 : ¬(instant b.start ≤ instant cur ∧ instant cur < instant b.stop) := by
        intro hcon; exact hwf (lt_of_le_of_lt hcon.1 hcon.2)
      have h2 : ¬(instant b.start ≤ instant met ∧ instant met < instant b.stop) := by
        intro hcon; exact hwf (lt_of_le_of_lt hcon.1 hcon.2)
      rw [ih]
      conv_rhs => rw [scanBusy]
      rw [if_neg h1, if_neg h2]

lemma loopStep_filter (A : List BusyInterval) (e eS lF : DateTime) (i d : Int)
    (mst met : DateTime) (acc : List DateTime) :
    loopStep (A.filter fun b => decide (instant b.start < instant b.stop))
        e eS lF i d mst met acc =
      loopStep A e eS lF i d mst met acc := by
  unfold loopStep
  simp only [scanBusy_filter]

lemma findLoop_filter (A : List BusyInterval) (e eS lF : DateTime) (i d : Int) :
    ∀ (fuel : Nat) (mst met : DateTime) (acc : List DateTime),
      findLoop (A.filter fun b => decide (instant b.start < instant b.stop))
          e eS lF i d fuel mst met acc =
        findLoop A e eS lF i d fuel mst met acc := by
  intro fuel
  induction fuel with
  | zero => intro mst met acc; rfl
  | succ fuel ih =>
    intro mst met acc
    rw [findLoop_unfold_succ, findLoop_unfold_succ, loopStep_filter, ih]

/-- A time zone, as used by `get_min_max_start` and `sort_time_zones`:
`zoneinfo.ZoneInfo` is modelled by its UTC-offset function (microseconds of
offset as a function of the local wall-clock microsecond count). -/
structure TimeZone where
  offsetAt : Int → Int

/-- Wall-clock microseconds of `datetime.datetime(2024, 5, 20, h)`;
19863 is the day index of 2024-05-20 from 1970-01-01. -/
def refDateWall (h : Int) : Int := 19863 * 86400000000 + h * 3600000000

/-- The aware datetime `datetime.datetime(2024, 5, 20, h, tzinfo=zone)`. -/
def zonedRefDate (z : TimeZone) (h : Int) : DateTime :=
  ⟨refDateWall h, z.offsetAt (refDateWall h)⟩

/-- CPython `max` on datetimes: first element, replaced whenever a later
item compares strictly greater (by instant). -/
def pyMax (l : List DateTime) : Option DateTime :=
  match l with
  | [] => none
  | x :: xs => some (xs.foldl (fun cur it => if instant cur < instant it then it else cur) x)

/-- CPython `min` on datetimes: first element, replaced whenever a later
item compares strictly smaller (by instant). -/
def pyMin (l : List DateTime) : Option DateTime :=
  match l with
  | [] => none
  | x :: xs => some (xs.foldl (fun cur it => if instant it < instant cur then it else cur) x)

/-- `get_min_max_start` from gcal_options.py lines 193-213, with the
configuration values `START_OF_DAY` and `END_OF_DAY` (read from
preferences.json, not part of src/) as parameters; `none` models the
`ValueError` Python's `max`/`min` raise on an empty list. -/
def get_min_max_start (startOfDay endOfDay : Int) (time_zones : List TimeZone) :
    Option (DateTime × DateTime) :=
  match pyMax (time_zones.map fun z => zonedRefDate z startOfDay),
        pyMin (time_zones.map fun z => zonedRefDate z endOfDay) with
  | some a, some b => some (a, b)
  | _, _ => none

lemma pyFoldMax_spec (xs : List DateTime) (x : DateTime) :
    (xs.foldl (fun cur it => if instant cur < instant it then it else cur) x) ∈ x :: xs ∧
      (∀ y ∈ x :: xs, instant y ≤
        instant (xs.foldl (fun cur it => if instant cur < instant it then it else cur) x)) := by
  induction xs generalizing x with
  | nil =>
    refine ⟨List.mem_singleton.mpr rfl, ?_⟩
    intro y hy
    obtain rfl := List.mem_singleton.mp hy
    exact le_refl _
  | cons z zs ih =>
    simp only [List.foldl_cons]
    obtain ⟨ihmem, ihbound⟩ := ih (if instant x < instant z then z else x)
    constructor
    · rcases List.mem_cons.mp ihmem with hm | hm
      · rw [hm]
        split_ifs
        · exact List.mem_cons_of_mem _ (List.mem_cons_self _ _)
        · exact List.mem_cons_self _ _
      · exact List.mem_cons_of_mem _ (List.mem_cons_of_mem _ hm)
    · intro y hy
      rcases List.mem_cons.mp hy with rfl | hy
      · refine le_trans ?_ (ihbound _ (List.mem_cons_self _ _))
        split_ifs with hxz
        · exact le_of_lt hxz
        · exact le_refl _
      · rcases List.mem_cons.mp hy with rfl | hy
        · refine le_trans ?_ (ihbound _ (List.mem_cons_self _ _))
          split_ifs with hxz
          · exact le_refl _
          · exact not_lt.mp hxz
        · exact ihbound _ (List.mem_cons_of_mem _ hy)

lemma pyFoldMin_spec (xs : List DateTime) (x : DateTime) :
    (xs.foldl (fun cur it => if instant it < instant cur then it else cur) x) ∈ x :: xs ∧
      (∀ y ∈ x :: xs,
        instant (xs.foldl (fun cur it => if instant it < instant cur then it else cur) x) ≤
          instant y) := by
  induction xs generalizing x with
  | nil =>
    refine ⟨List.mem_singleton.mpr rfl, ?_⟩
    intro y hy
    obtain rfl := List.mem_singleton.mp hy
    exact le_refl _
  | cons z zs ih =>
    simp only [List.foldl_cons]
    obtain ⟨ihmem, ihbound⟩ := ih (if instant z < instant x then z else x)
    constructor
    · rcases List.mem_cons.mp ihmem with hm | hm
      · rw [hm]
        split_ifs
        · exact List.mem_cons_of_mem _ (List.mem_cons_self _ _)
        · exact List.mem_cons_self _ _
      · exact List.mem_cons_of_mem _ (List.mem_cons_of_mem _ hm)
    · intro y hy
      rcases List.mem_cons.mp hy with rfl | hy
      · refine le_trans (ihbound _ (List.mem_cons_self _ _)) ?_
        split_ifs with hxz
        · exact le_of_lt hxz
        · exact le_refl _
      · rcases List.mem_cons.mp hy with rfl | hy
        · refine le_trans (ihbound _ (List.mem_cons_self _ _)) ?_
          split_ifs with hxz
          · exact le_refl _
          · exact not_lt.mp hxz
        · exact ihbound _ (List.mem_cons_of_mem _ hy)



/-- Two-digit zero-padded decimal rendering, Python `'%02d'` (for 0-99). -/
def pad2 (n : Int) : String := if n < 10 then "0" ++ toString n else toString n

/-- Six-digit zero-padded decimal rendering, Python `'%06d'`. -/
def pad6 (n : Int) : String :=
  String.mk (List.replicate (6 - (toString n).length) '0') ++ toString n

/-- The `%z` directive of `strftime` for an aware datetime whose UTC offset
is `off` microseconds: sign, two-digit hours, two-digit minutes, then
seconds and microseconds only when nonzero (CPython `_wrap_strftime`). -/
def strftimeZ (off : Int) : String :=
  let sign := if off < 0 then "-" else "+"
  let a := if off < 0 then -off else off
  let hh := a / 3600000000
  let mm := a % 3600000000 / 60000000
  let ss := a % 60000000 / 1000000
  let us := a % 1000000
  sign ++ pad2 hh ++ pad2 mm ++
    (if us ≠ 0 then pad2 ss ++ "." ++ pad6 us
     else if ss ≠ 0 then pad2 ss else "")

/-- Python dict assignment `d[k] = v`: an existing key keeps its position
and gets the new value; a new key is appended. -/
def dictInsert (d : List (String × String)) (k v : String) :
    List (String × String) :=
  if d.any (fun p => p.1 == k) then
    d.map (fun p => if p.1 == k then (k, v) else p)
  else d ++ [(k, v)]

/-- Python string comparison: lexicographic by code point, a strict
prefix being smaller. -/
def pyCharListLt : List Char → List Char → Bool
  | [], [] => false
  | [], _ :: _ => true
  | _ :: _, [] => false
  | a :: as, b :: bs =>
    if a.toNat < b.toNat then true
    else if b.toNat < a.toNat then false
    else pyCharListLt as bs

/-- Python `<` on strings. -/
def pyStrLt (a b : String) : Bool := pyCharListLt a.data b.data

/-- Python tuple comparison on `(key, value)` pairs of strings. -/
def tupleLt (a b : String × String) : Bool :=
  pyStrLt a.1 b.1 || (a.1 == b.1 && pyStrLt a.2 b.2)

/-- Stable insertion of one pair into an ascending list. -/
def sortedInsert (x : String × String) :
    List (String × String) → List (String × String)
  | [] => [x]
  | y :: ys => if tupleLt x y then x :: y :: ys else y :: sortedInsert x ys

/-- Python `sorted` on a list of string pairs (stable, ascending). -/
def pySorted (l : List (String × String)) : List (String × String) :=
  l.foldr sortedInsert []

/-- `sort_time_zones` from gcal_options.py lines 72-84, with the
`datetime.datetime.now(zoneinfo.ZoneInfo(tz)).strftime('%z')` lookup
abstracted into the current-offset function `offsetOf` (microseconds). -/
def sort_time_zones (offsetOf : String → Int) (time_zone_list : List String) :
    List String :=
  let temp_holder := time_zone_list.foldl
    (fun d time_zone => dictInsert d (strftimeZ (offsetOf time_zone)) time_zone) []
  (pySorted temp_holder).map (fun p => p.2)



/-- C1 counterexample: with step 15 (not a multiple of 30) the snap at the
top of an iteration leaves `meeting_end_time` stale, and find_a_time
accepts 09:30 although 09:30 + 45 min = 10:15 lies inside the busy
interval [10:10, 10:20). -/
theorem c1_counterexample :
    find_a_time 20 [⟨mkDT 19863 10 10 0 0, mkDT 19863 10 20 0 0⟩]
        (mkDT 19863 9 0 0 0) (mkDT 19863 11 0 0 0)
        (mkDT 19863 9 0 0 0) (mkDT 19863 17 0 0 0) 15 45 =
      some [mkDT 19863 9 0 0 0, mkDT 19863 9 30 0 0, mkDT 19863 10 0 0 0] ∧
    instant (mkDT 19863 10 10 0 0) ≤ instant (addMinutes (mkDT 19863 9 30 0 0) 45) ∧
    instant (addMinutes (mkDT 19863 9 30 0 0) 45) < instant (mkDT 19863 10 20 0 0) := by
  decide

/-- C1 (amended): provided the step interval is a multiple of 30 minutes
and the search-window start has zero minutes, seconds and microseconds,
every slot s returned by find_a_time satisfies: no busy interval
[b.start, b.end) contains s and none contains s + duration. -/
theorem c1_no_overlap :
    ∀ (fuel : Nat) (availaibity : List BusyInterval)
      (start_time end_time earliest_start latest_finish : DateTime)
      (interval duration : Int) (l : List DateTime),
      interval % 30 = 0 →
      minute start_time = 0 → second start_time = 0 → microsecond start_time = 0 →
      find_a_time fuel availaibity start_time end_time earliest_start latest_finish
        interval duration = some l →
      ∀ s ∈ l, ∀ b ∈ availaibity,
        ¬(instant b.start ≤ instant s ∧ instant s < instant b.stop) ∧
        ¬(instant b.start ≤ instant (addMinutes s duration) ∧
            instant (addMinutes s duration) < instant b.stop) := by
  intro fuel A start endT eS lF i d l hi hm hs hu hfind s hsl b hb
  unfold find_a_time at hfind
  have hmet : initMeetingEnd start d = addMinutes (initMeetingStart start) d := by
    unfold initMeetingEnd initMeetingStart
    rw [truncate_eq_self start hm hs hu]
  exact findLoop_noOverlap A endT eS lF i d hi fuel (initMeetingStart start)
    (initMeetingEnd start d) [] l (Or.inl (minute_truncate start)) hmet
    (by intro x hx; cases hx) hfind s hsl b hb

/-- C1 witness: the amended theorem applied to a concrete aligned run. -/
theorem c1_no_overlap_witness :
    ¬(instant (mkDT 19863 13 0 0 0) ≤ instant (mkDT 19863 9 30 0 0) ∧
        instant (mkDT 19863 9 30 0 0) < instant (mkDT 19863 14 0 0 0)) ∧
    ¬(instant (mkDT 19863 13 0 0 0) ≤ instant (addMinutes (mkDT 19863 9 30 0 0) 45) ∧
        instant (addMinutes (mkDT 19863 9 30 0 0) 45) < instant (mkDT 19863 14 0 0 0)) :=
  c1_no_overlap 20 [⟨mkDT 19863 13 0 0 0, mkDT 19863 14 0 0 0⟩]
    (mkDT 19863 9 0 0 0) (mkDT 19863 11 0 0 0)
    (mkDT 19863 9 0 0 0) (mkDT 19863 17 0 0 0) 30 45
    [mkDT 19863 9 0 0 0, mkDT 19863 9 30 0 0, mkDT 19863 10 0 0 0]
    (by decide) (by decide) (by decide) (by decide) (by decide)
    (mkDT 19863 9 30 0 0) (by decide)
    ⟨mkDT 19863 13 0 0 0, mkDT 19863 14 0 0 0⟩ (by decide)



/-- C2 counterexample: with earliest-start hour 16, latest-finish hour 17
and duration 90, the lower-bound clamp accepts 16:00 whose end 17:30 has
hour 17, not strictly below the latest-finish hour — the clamp branch
never re-checks the upper bound. -/
theorem c2_counterexample :
    find_a_time 5 [] (mkDT 19863 15 0 0 0) (mkDT 19863 18 0 0 0)
        (mkDT 19863 16 0 0 0) (mkDT 19863 17 0 0 0) 30 90 =
      some [mkDT 19863 16 0 0 0] ∧
    ¬(hour (addMinutes (mkDT 19863 16 0 0 0) 90) < hour (mkDT 19863 17 0 0 0)) := by
  decide

/-- C2 (amended): provided the step is a multiple of 30 minutes, the
duration is nonnegative, the search-window start is hour-aligned, and the
working window leaves room for a clamped slot
(earliestHour*60 + 31 + duration ≤ latestHour*60), every accepted slot s
has hour at least the earliest-start hour, s + duration has hour strictly
below the latest-finish hour, and s and s + duration share the day of
month (the calendar-day comparison the code performs). -/
theorem c2_working_window :
    ∀ (fuel : Nat) (availaibity : List BusyInterval)
      (start_time end_time earliest_start latest_finish : DateTime)
      (interval duration : Int) (l : List DateTime),
      interval % 30 = 0 → 0 ≤ duration →
      minute start_time = 0 → second start_time = 0 → microsecond start_time = 0 →
      hour earliest_start * 60 + 31 + duration ≤ hour latest_finish * 60 →
      find_a_time fuel availaibity start_time end_time earliest_start latest_finish
        interval duration = some l →
      ∀ s ∈ l, hour earliest_start ≤ hour s ∧
        hour (addMinutes s duration) < hour latest_finish ∧
        dayOfMonth (addMinutes s duration) = dayOfMonth s := by
  intro fuel A start endT eS lF i d l hi hd hm hs hu hslack hfind s hsl
  unfold find_a_time at hfind
  have hmet : initMeetingEnd start d = addMinutes (initMeetingStart start) d := by
    unfold initMeetingEnd initMeetingStart
    rw [truncate_eq_self start hm hs hu]
  exact findLoop_window A endT eS lF i d hi hd hslack fuel (initMeetingStart start)
    (initMeetingEnd start d) [] l (Or.inl (minute_truncate start)) hmet
    (by intro x hx; cases hx) hfind s hsl

/-- C2 witness: the amended theorem applied to a concrete aligned run. -/
theorem c2_working_window_witness :
    hour (mkDT 19863 9 0 0 0) ≤ hour (mkDT 19863 9 30 0 0) ∧
    hour (addMinutes (mkDT 19863 9 30 0 0) 45) < hour (mkDT 19863 17 0 0 0) ∧
    dayOfMonth (addMinutes (mkDT 19863 9 30 0 0) 45) = dayOfMonth (mkDT 19863 9 30 0 0) :=
  c2_working_window 20 [] (mkDT 19863 9 0 0 0) (mkDT 19863 11 0 0 0)
    (mkDT 19863 9 0 0 0) (mkDT 19863 17 0 0 0) 30 45
    [mkDT 19863 9 0 0 0, mkDT 19863 9 30 0 0, mkDT 19863 10 0 0 0]
    (by decide) (by decide) (by decide) (by decide) (by decide) (by decide) (by decide)
    (mkDT 19863 9 30 0 0) (by decide)

/-- C3: for a well-formed search window and busy set (and the data model's
positive step and duration), find_a_time terminates: every iteration
either strictly advances the cursor or makes the loop guard fail, so a
finite fuel suffices. -/
theorem c3_termination :
    ∀ (availaibity : List BusyInterval)
      (start_time end_time earliest_start latest_finish : DateTime)
      (interval duration : Int),
      instant start_time < instant end_time →
      (∀ b ∈ availaibity, instant b.start < instant b.stop) →
      0 < interval → 0 < duration →
      (∀ (mst met : DateTime) (acc : List DateTime),
          instant mst ≤ instant met →
          instant mst < instant (loopStep availaibity end_time earliest_start
              latest_finish interval duration mst met acc).1 ∨
            instant end_time ≤ instant (loopStep availaibity end_time earliest_start
              latest_finish interval duration mst met acc).2.1) ∧
      ∃ fuel, (find_a_time fuel availaibity start_time end_time earliest_start
        latest_finish interval duration).isSome := by
  intro A start endT eS lF i d hwin hwf hi hd
  constructor
  · intro mst met acc hJ
    exact loopStep_progress A endT eS lF i d mst met acc (le_of_lt hd) hi hJ
  · refine ⟨(instant endT - instant (initMeetingStart start)).toNat + 1, ?_⟩
    unfold find_a_time
    refine findLoop_terminates A endT eS lF i d (le_of_lt hd) hi _ _ _ _ ?_ ?_
    · unfold initMeetingEnd initMeetingStart
      have h1 := instant_truncate_le start
      rw [instant_addMinutes]
      omega
    · omega

/-- C3 witness: termination at a concrete well-formed input. -/
theorem c3_termination_witness :
    ∃ fuel, (find_a_time fuel [⟨mkDT 19863 10 0 0 0, mkDT 19863 11 0 0 0⟩]
      (mkDT 19863 9 0 0 0) (mkDT 19863 17 0 0 0)
      (mkDT 19863 9 0 0 0) (mkDT 19863 17 0 0 0) 30 45).isSome :=
  (c3_termination [⟨mkDT 19863 10 0 0 0, mkDT 19863 11 0 0 0⟩]
    (mkDT 19863 9 0 0 0) (mkDT 19863 17 0 0 0)
    (mkDT 19863 9 0 0 0) (mkDT 19863 17 0 0 0) 30 45
    (by decide) (by decide) (by decide) (by decide)).2

/-- C4: the empty-busy one-day scenario (window 09:00-17:00, duration 45,
step 30, hours 9-17) returns exactly the slots 09:00, 09:30, ..., 16:00. -/
theorem c4_empty_busy_scenario :
    find_a_time 20 [] (mkDT 19863 9 0 0 0) (mkDT 19863 17 0 0 0)
        (mkDT 19863 9 0 0 0) (mkDT 19863 17 0 0 0) 30 45 =
      some [mkDT 19863 9 0 0 0, mkDT 19863 9 30 0 0, mkDT 19863 10 0 0 0,
        mkDT 19863 10 30 0 0, mkDT 19863 11 0 0 0, mkDT 19863 11 30 0 0,
        mkDT 19863 12 0 0 0, mkDT 19863 12 30 0 0, mkDT 19863 13 0 0 0,
        mkDT 19863 13 30 0 0, mkDT 19863 14 0 0 0, mkDT 19863 14 30 0 0,
        mkDT 19863 15 0 0 0, mkDT 19863 15 30 0 0, mkDT 19863 16 0 0 0] := by
  decide



/-- C5: for a nonempty zone list, get_min_max_start returns the pair whose
first component attains the maximum of the per-zone earliest-start
instants and whose second attains the minimum of the per-zone latest-end
instants, compared as full instants. -/
theorem c5_min_max :
    ∀ (startOfDay endOfDay : Int) (z : TimeZone) (zs : List TimeZone)
      (p : DateTime × DateTime),
      get_min_max_start startOfDay endOfDay (z :: zs) = some p →
      (p.1 ∈ (z :: zs).map (fun w => zonedRefDate w startOfDay) ∧
        (∀ w ∈ z :: zs, instant (zonedRefDate w startOfDay) ≤ instant p.1)) ∧
      (p.2 ∈ (z :: zs).map (fun w => zonedRefDate w endOfDay) ∧
        (∀ w ∈ z :: zs, instant p.2 ≤ instant (zonedRefDate w endOfDay))) := by
  intro sod eod z zs p h
  unfold get_min_max_start pyMax pyMin at h
  simp only [List.map_cons] at h
  obtain rfl : (((zs.map fun w => zonedRefDate w sod).foldl
      (fun cur it => if instant cur < instant it then it else cur) (zonedRefDate z sod)),
      ((zs.map fun w => zonedRefDate w eod).foldl
      (fun cur it => if instant it < instant cur then it else cur) (zonedRefDate z eod))) = p := by
    injection h
  obtain ⟨hmax_mem, hmax_bd⟩ := pyFoldMax_spec (zs.map fun w => zonedRefDate w sod) (zonedRefDate z sod)
  obtain ⟨hmin_mem, hmin_bd⟩ := pyFoldMin_spec (zs.map fun w => zonedRefDate w eod) (zonedRefDate z eod)
  refine ⟨⟨?_, ?_⟩, ⟨?_, ?_⟩⟩
  · simpa using hmax_mem
  · intro w hw
    exact hmax_bd _ (by
      rcases List.mem_cons.mp hw with rfl | hw
      · exact List.mem_cons_self _ _
      · exact List.mem_cons_of_mem _ (List.mem_map_of_mem _ hw))
  · simpa using hmin_mem
  · intro w hw
    exact hmin_bd _ (by
      rcases List.mem_cons.mp hw with rfl | hw
      · exact List.mem_cons_self _ _
      · exact List.mem_cons_of_mem _ (List.mem_map_of_mem _ hw))

/-- C5 witness: two zones, offsets 0 and +01:00; the common start is the
zero-offset zone's 09:00 (the later instant) and the common end is the
+01:00 zone's 17:00 (the earlier instant). -/
theorem c5_min_max_witness :
    ((⟨refDateWall 9, 0⟩ : DateTime) ∈
        ([⟨fun _ => 0⟩, ⟨fun _ => 3600000000⟩] : List TimeZone).map
          (fun w => zonedRefDate w 9) ∧
      (∀ w ∈ ([⟨fun _ => 0⟩, ⟨fun _ => 3600000000⟩] : List TimeZone),
        instant (zonedRefDate w 9) ≤ instant (⟨refDateWall 9, 0⟩ : DateTime))) ∧
    ((⟨refDateWall 17, 3600000000⟩ : DateTime) ∈
        ([⟨fun _ => 0⟩, ⟨fun _ => 3600000000⟩] : List TimeZone).map
          (fun w => zonedRefDate w 17) ∧
      (∀ w ∈ ([⟨fun _ => 0⟩, ⟨fun _ => 3600000000⟩] : List TimeZone),
        instant (⟨refDateWall 17, 3600000000⟩ : DateTime) ≤
          instant (zonedRefDate w 17))) :=
  c5_min_max 9 17 ⟨fun _ => 0⟩ [⟨fun _ => 3600000000⟩]
    (⟨refDateWall 9, 0⟩, ⟨refDateWall 17, 3600000000⟩) rfl

/-- C6 evaluation at the failing inputs: zones with offsets +01:00 and
+02:00 come back in ascending offset order (the `%z` strings sort
lexicographically), not the claimed descending order, and two zones
sharing the offset +02:00 collapse to the one inserted last. -/
theorem c6_code_evaluation :
    sort_time_zones
        (fun s => if s = "Zone/PlusTwo" then 7200000000 else 3600000000)
        ["Zone/PlusTwo", "Zone/PlusOne"] = ["Zone/PlusOne", "Zone/PlusTwo"] ∧
    sort_time_zones (fun _ => 7200000000) ["Zone/P1", "Zone/P2"] = ["Zone/P2"] := by
  constructor <;> decide



/-- C7: every slot accepted by find_a_time has minute component 0 or 30
(which in particular entails the claim's weaker disjunction with the
earliest-start boundary case). -/
theorem c7_grid_invariant :
    ∀ (fuel : Nat) (availaibity : List BusyInterval)
      (start_time end_time earliest_start latest_finish : DateTime)
      (interval duration : Int) (l : List DateTime),
      find_a_time fuel availaibity start_time end_time earliest_start latest_finish
        interval duration = some l →
      ∀ s ∈ l, minute s = 0 ∨ minute s = 30 := by
  intro fuel A start endT eS lF i d l hfind s hsl
  unfold find_a_time at hfind
  exact findLoop_minute A endT eS lF i d fuel (initMeetingStart start)
    (initMeetingEnd start d) [] l (by intro x hx; cases hx) hfind s hsl

/-- C7 witness: the grid invariant applied to a concrete run. -/
theorem c7_grid_invariant_witness :
    minute (mkDT 19863 9 30 0 0) = 0 ∨ minute (mkDT 19863 9 30 0 0) = 30 :=
  c7_grid_invariant 20 [] (mkDT 19863 9 0 0 0) (mkDT 19863 11 0 0 0)
    (mkDT 19863 9 0 0 0) (mkDT 19863 17 0 0 0) 30 45
    [mkDT 19863 9 0 0 0, mkDT 19863 9 30 0 0, mkDT 19863 10 0 0 0]
    (by decide) (mkDT 19863 9 30 0 0) (by decide)

/-- C8 counterexample: for the window start 09:15, the initial
`meeting_end_time` is 09:15 + 45 min = 10:00, not the truncated cursor
09:00 plus 45 min = 09:45. -/
theorem c8_counterexample :
    initMeetingEnd (mkDT 19863 9 15 0 0) 45 ≠
      addMinutes (initMeetingStart (mkDT 19863 9 15 0 0)) 45 := by
  decide

/-- C8 (amended): at loop entry the cursor is the window start truncated
to the top of the hour, while `meeting_end_time` is the untruncated window
start plus the duration; the two initializations agree exactly when the
window start has zero minutes, seconds and microseconds. -/
theorem c8_init_state :
    ∀ (start_time : DateTime) (duration : Int),
      initMeetingStart start_time = truncateToHour start_time ∧
      initMeetingEnd start_time duration = addMinutes start_time duration ∧
      (minute start_time = 0 → second start_time = 0 → microsecond start_time = 0 →
        initMeetingEnd start_time duration =
          addMinutes (initMeetingStart start_time) duration) := by
  intro start d
  refine ⟨rfl, rfl, ?_⟩
  intro h1 h2 h3
  unfold initMeetingEnd initMeetingStart
  rw [truncate_eq_self start h1 h2 h3]

/-- C8 witness: the amended initialization fact at an aligned start. -/
theorem c8_init_state_witness :
    initMeetingEnd (mkDT 19863 9 0 0 0) 45 =
      addMinutes (initMeetingStart (mkDT 19863 9 0 0 0)) 45 :=
  (c8_init_state (mkDT 19863 9 0 0 0) 45).2.2 (by decide) (by decide) (by decide)

/-- C9 counterexample: a busy set containing the malformed interval
[10:00, 09:00) (end before start) is not rejected: find_a_time runs the
loop and returns a slot list. -/
theorem c9_counterexample :
    find_a_time 20 [⟨mkDT 19863 10 0 0 0, mkDT 19863 9 0 0 0⟩]
        (mkDT 19863 9 0 0 0) (mkDT 19863 11 0 0 0)
        (mkDT 19863 9 0 0 0) (mkDT 19863 17 0 0 0) 30 45 =
      some [mkDT 19863 9 0 0 0, mkDT 19863 9 30 0 0, mkDT 19863 10 0 0 0] := by
  decide

/-- C9 (amended): find_a_time performs no validation; an interval with
end at or before start never satisfies the half-open containment checks,
so the result is exactly the result on the list with malformed intervals
removed. -/
theorem c9_malformed_inert :
    ∀ (fuel : Nat) (availaibity : List BusyInterval)
      (start_time end_time earliest_start latest_finish : DateTime)
      (interval duration : Int),
      find_a_time fuel
          (availaibity.filter fun b => decide (instant b.start < instant b.stop))
          start_time end_time earliest_start latest_finish interval duration =
        find_a_time fuel availaibity start_time end_time earliest_start
          latest_finish interval duration := by
  intro fuel A start endT eS lF i d
  unfold find_a_time
  exact findLoop_filter A endT eS lF i d fuel _ _ _

/-- C10: round_to_half_hour never clears the second or microsecond
components, and consequently a busy interval ending at 09:10:30 makes
find_a_time return the slot 09:30:30, whose seconds component 30 is
inherited from that interval's end. -/
theorem c10_subminute_inheritance :
    (∀ t : DateTime, second (round_to_half_hour t) = second t ∧
        microsecond (round_to_half_hour t) = microsecond t) ∧
    (find_a_time 20 [⟨mkDT 19863 9 0 0 0, mkDT 19863 9 10 30 0⟩]
        (mkDT 19863 9 0 0 0) (mkDT 19863 11 0 0 0)
        (mkDT 19863 9 0 0 0) (mkDT 19863 17 0 0 0) 30 45 =
      some [mkDT 19863 9 30 30 0, mkDT 19863 10 0 30 0] ∧
      second (mkDT 19863 9 30 30 0) = 30 ∧
      second (mkDT 19863 9 10 30 0) = 30) :=
  ⟨fun t => ⟨second_round t, microsecond_round t⟩, by decide⟩


end GcalBrunch
